import Mathlib

/-!
Verification of the decision-mcp-server core against its specification.

The definitions below are a shallow embedding, translated from the Python
sources of the repository:
  * `Credentials.get_auth`            (src/decision_mcp_server/Credentials.py)
  * `DecisionServerManager.extract_highest_version_rulesets`,
    `get_input_schema`, `generate_tools_format`, `to_plain_dict`,
    `invokeDecisionService`           (src/decision_mcp_server/DecisionServerManager.py)
  * `DecisionServiceDescription.__init__`
                                      (src/decision_mcp_server/DecisionServiceDescription.py)

Network and file-system effects (token endpoint POST, JWT signing) are
modelled as explicit oracle parameters carrying the outcome the external
call would have produced; Python exceptions are modelled with `Except`.
-/

/-- Python exceptions that the embedded code can raise. -/
inductive PyErr where
  | valueError (msg : String)
  | typeError (msg : String)
  | indexError
  | keyError (k : String)
  | attributeError
  | jsonDecodeError
  | httpError (status : Nat)
deriving DecidableEq

/-- Python truthiness of an optional string field (`None` and `""` are falsy). -/
def truthy : Option String → Bool
  | none => false
  | some s => !(s == "")

/-- Python rendering of an optional string inside an f-string (`None` prints as "None"). -/
def pyStr : Option String → String
  | none => "None"
  | some s => s

/-- UTF-8 encoding of one character, as `str.encode()` produces. -/
def utf8Bytes (c : Char) : List Nat :=
  let n := c.toNat
  if n < 128 then [n]
  else if n < 2048 then [192 + n / 64, 128 + n % 64]
  else if n < 65536 then [224 + n / 4096, 128 + n / 64 % 64, 128 + n % 64]
  else [240 + n / 262144, 128 + n / 4096 % 64, 128 + n / 64 % 64, 128 + n % 64]

/-- UTF-8 bytes of a string. -/
def strBytes (s : String) : List Nat :=
  (s.data.map utf8Bytes).flatten

/-- The RFC 4648 base64 alphabet. -/
def b64Chars : List Char :=
  "ABCDEFGHIJKLMNOPQRSTUVWXYZabcdefghijklmnopqrstuvwxyz0123456789+/".data

/-- Character of the base64 alphabet at a 6-bit index. -/
def b64CharAt (n : Nat) : Char :=
  b64Chars.getD n 'A'

/-- RFC 4648 base64 with padding, grouping bytes three at a time
(`base64.b64encode`). -/
def base64Chunks : List Nat → List Char
  | [] => []
  | [b1] =>
      [b64CharAt (b1 / 4), b64CharAt (b1 % 4 * 16), '=', '=']
  | [b1, b2] =>
      [b64CharAt (b1 / 4), b64CharAt (b1 % 4 * 16 + b2 / 16), b64CharAt (b2 % 16 * 4), '=']
  | b1 :: b2 :: b3 :: rest =>
      b64CharAt (b1 / 4) :: b64CharAt (b1 % 4 * 16 + b2 / 16) ::
      b64CharAt (b2 % 16 * 4 + b3 / 64) :: b64CharAt (b3 % 64) :: base64Chunks rest

/-- `base64.b64encode(s.encode()).decode()` on a string. -/
def base64OfString (s : String) : String :=
  String.mk (base64Chunks (strBytes s))

/-- Credential fields consulted by `Credentials.get_auth`.  Fields the
method never reads (SSL material, mTLS paths, scope, urls) are omitted;
each kept field is `Option String` exactly as the Python attributes
default to `None`. -/
structure Credentials where
  username : Option String
  password : Option String
  token_url : Option String
  client_id : Option String
  client_secret : Option String
  zenapikey : Option String
  pkjwt_cert_path : Option String
deriving DecidableEq

/-- Outcomes of the external effects `get_auth` can perform: signing the
PKJWT client assertion (certificate read, thumbprint, `jwt.encode`; any
failure there is re-raised as `ValueError`), and the token-endpoint POST
(`requests.post` + `raise_for_status` + `response.json()['access_token']`). -/
structure AuthEffects where
  jwtSign : Except PyErr String
  tokenPost : Except PyErr String

/-- The headers every branch of `get_auth` includes. -/
def baseHeaders : List (String × String) :=
  [("Content-Type", "application/json; charset=UTF-8"),
   ("accept", "application/json; charset=UTF-8")]

/-- `Credentials.get_auth` (Credentials.py lines 145-277).  Returns the
header dictionary as an association list in literal order, or the raised
exception. -/
def get_auth (c : Credentials) (eff : AuthEffects) : Except PyErr (List (String × String)) :=
  if truthy c.zenapikey then
    -- concatenated_key = f"{self.username}:{self.zenapikey}"
    let concatenated_key := pyStr c.username ++ ":" ++ pyStr c.zenapikey
    if !truthy c.username then
      .error (.valueError "Username must be provided when using zenapikey.")
    else
      let encoded_zen_key := base64OfString concatenated_key
      .ok (("Authorization", "ZenApiKey " ++ encoded_zen_key) :: baseHeaders)
  else if truthy c.client_id || truthy c.client_secret then
    if !truthy c.client_id || !truthy c.token_url then
      .error (.valueError "Both client_id and token_url are required for OpenId authentication.")
    else
      let pre : Except PyErr Unit :=
        if truthy c.pkjwt_cert_path then
          -- PKJWT path: build and sign the JWT assertion, then POST it
          do let _ ← eff.jwtSign; pure ()
        else if !truthy c.client_secret then
          .error (.valueError "Either client_secret or pkjwt_key_path is required for OpenId authentication.")
        else
          pure ()
      do
        let _ ← pre
        let access_token ← eff.tokenPost
        pure (("Authorization", "Bearer " ++ access_token) :: baseHeaders)
  else if truthy c.username && truthy c.password then
    let concatenated_key := pyStr c.username ++ ":" ++ pyStr c.password
    let encoded_user_cred := base64OfString concatenated_key
    .ok (("Authorization", "Basic " ++ encoded_user_cred) :: baseHeaders)
  else
    .ok baseHeaders

/-- A profile with no credential field set at all. -/
def emptyCreds : Credentials :=
  { username := none, password := none, token_url := none, client_id := none
    client_secret := none, zenapikey := none, pkjwt_cert_path := none }

/-- Effect oracles for branches that perform no external call. -/
def noEffects : AuthEffects :=
  { jwtSign := .error (.valueError "no jwt signing in this scenario")
    tokenPost := .error (.valueError "no token request in this scenario") }

/-- The three fully-populated single-scheme shapes `get_auth` distinguishes. -/
inductive AuthScheme where
  | apikeyScheme
  | oauthScheme
  | basicScheme
deriving DecidableEq

/-- The Authorization scheme marker each credential shape must produce. -/
def schemeMarker : AuthScheme → String
  | .apikeyScheme => "ZenApiKey"
  | .oauthScheme => "Bearer"
  | .basicScheme => "Basic"

/-- A credential profile is configured with exactly the given single scheme. -/
def configuredScheme (c : Credentials) : AuthScheme → Prop
  | .apikeyScheme =>
      truthy c.zenapikey = true ∧ truthy c.username = true ∧
      truthy c.client_id = false ∧ truthy c.client_secret = false ∧
      truthy c.password = false
  | .oauthScheme =>
      truthy c.zenapikey = false ∧
      (truthy c.client_id = true ∨ truthy c.client_secret = true) ∧
      truthy c.username = false ∧ truthy c.password = false
  | .basicScheme =>
      truthy c.zenapikey = false ∧ truthy c.client_id = false ∧
      truthy c.client_secret = false ∧
      truthy c.username = true ∧ truthy c.password = true


/-- One `{id, value}` entry of a ruleset's property list.  The value can be
a JSON `null`, which Python reads as `None`. -/
structure RSProp where
  id : String
  value : Option String
deriving DecidableEq

/-- A ruleset record of the catalog listing. -/
structure Ruleset where
  id : String
  version : String
  displayName : String
  description : String
  properties : List RSProp
deriving DecidableEq

/-- A rule-application record of the catalog listing. -/
structure RuleApp where
  id : String
  rulesets : List Ruleset
deriving DecidableEq

/-- Python `s.split(sep)` with a one-character separator, over the
character list: no collapsing of empty fields, and `""` splits to `[""]`. -/
def splitChars (sep : Char) : List Char → List (List Char)
  | [] => [[]]
  | c :: rest =>
      let r := splitChars sep rest
      if c = sep then [] :: r
      else
        match r with
        | [] => [[c]]
        | g :: gs => (c :: g) :: gs

/-- Python `s.split(sep)` for a one-character separator. -/
def pySplit (sep : Char) (s : String) : List String :=
  (splitChars sep s.data).map String.mk

/-- Python `s.replace(old, new)` for one-character patterns. -/
def pyReplaceChar (src repl : Char) (s : String) : String :=
  String.mk (s.data.map (fun c => if c = src then repl else c))

/-- Python `s.lower()` (ASCII-adequate, as `Char.toLower`). -/
def pyLower (s : String) : String :=
  String.mk (s.data.map Char.toLower)

/-- Python list indexing: `xs[i]` raises `IndexError` out of range. -/
def pyIndex (xs : List String) (i : Nat) : Except PyErr String :=
  match xs.get? i with
  | some x => .ok x
  | none => .error .indexError

/-- `defaultdict(list)` accumulation preserving key insertion order:
append `v` to the list at `k`, creating the key at the end if new. -/
def groupAppend (k : String × String) (v : String × Ruleset) :
    List ((String × String) × List (String × Ruleset)) →
    List ((String × String) × List (String × Ruleset))
  | [] => [(k, [v])]
  | (k', vs) :: rest =>
      if k' = k then (k', vs ++ [v]) :: rest else (k', vs) :: groupAppend k v rest

/-- The grouping state: `(ruleapp_name, ruleset_name)` keys in insertion
order, each with its `(ruleapp_version, ruleset)` pairs. -/
abbrev Groups := List ((String × String) × List (String × Ruleset))

/-- The inner grouping loop body (line 94-96): index the ruleset id's
third segment and append to the group. -/
def groupRulesetStep (ruleapp_name ruleapp_version : String) (gs : Groups)
    (ruleset : Ruleset) : Except PyErr Groups := do
  let ruleset_name ← pyIndex (pySplit '/' ruleset.id) 2
  pure (groupAppend (ruleapp_name, ruleset_name) (ruleapp_version, ruleset) gs)

/-- The outer grouping loop body (lines 92-96): index the rule application
id's first two segments, then walk its rulesets. -/
def groupAppStep (groups : Groups) (ruleapp : RuleApp) : Except PyErr Groups := do
  let ruleapp_name ← pyIndex (pySplit '/' ruleapp.id) 0
  let ruleapp_version ← pyIndex (pySplit '/' ruleapp.id) 1
  ruleapp.rulesets.foldlM (groupRulesetStep ruleapp_name ruleapp_version) groups

/-- The grouping loop of `extract_highest_version_rulesets` (lines 91-96). -/
def buildGroups (data : List RuleApp) : Except PyErr Groups :=
  data.foldlM groupAppStep []

/-- The enablement filter (lines 101-105): property `ruleset.status` equals
"enabled" and a `tools.enabled` property is present (any value). -/
def rulesetEnabledFilter (r : Ruleset) : Bool :=
  r.properties.any (fun p => p.id == "ruleset.status" && p.value == some "enabled") &&
  r.properties.any (fun p => p.id == "tools.enabled")

/-- Python string `<`: lexicographic comparison by code point. -/
def charListLt : List Char → List Char → Bool
  | [], [] => false
  | [], _ :: _ => true
  | _ :: _, [] => false
  | a :: as, b :: bs =>
      if a.toNat < b.toNat then true
      else if b.toNat < a.toNat then false
      else charListLt as bs

/-- Python string `<` on strings. -/
def pyStrLt (a b : String) : Bool :=
  charListLt a.data b.data

/-- Python tuple-of-strings `≤`, as used by `sorted` on the
`(ruleapp_version, ruleset_version)` keys: lexicographic, strings compared
by code point. -/
def keyLe (x y : String × String) : Bool :=
  pyStrLt x.1 y.1 || (x.1 == y.1 && (pyStrLt x.2 y.2 || x.2 == y.2))

/-- Stable insertion used to model Python's stable `sorted`:
`le a b` means `a` may be placed before `b`. -/
def insertStable {α : Type} (le : α → α → Bool) (a : α) : List α → List α
  | [] => [a]
  | b :: bs => if le a b then a :: b :: bs else b :: insertStable le a bs

/-- Stable sort: elements with equivalent keys keep their original order,
as Python's `sorted` guarantees. -/
def stableSortBy {α : Type} (le : α → α → Bool) (xs : List α) : List α :=
  xs.foldr (insertStable le) []

/-- Sort key of line 108: `(ruleapp_version, ruleset["version"])`. -/
def sortKey (vr : String × Ruleset) : String × String :=
  (vr.1, vr.2.version)

/-- `sorted(..., reverse=True)`: descending by key, ties in original order. -/
def sortedDescending (xs : List (String × Ruleset)) : List (String × Ruleset) :=
  stableSortBy (fun a b => keyLe (sortKey b) (sortKey a)) xs

/-- Python dict assignment `d[k] = v` on an insertion-ordered dictionary:
overwrite in place when the key exists, append otherwise. -/
def dictInsert {β : Type} (d : List (String × β)) (k : String) (v : β) :
    List (String × β) :=
  match d with
  | [] => [(k, v)]
  | (k', v') :: rest =>
      if k' = k then (k, v) :: rest else (k', v') :: dictInsert rest k v

/-- The selection loop body (lines 99-111): filter the group, sort
descending, take the top candidate and assign it under the concatenated
key. -/
def selectStep (acc : List (String × Ruleset))
    (kv : (String × String) × List (String × Ruleset)) :
    Except PyErr (List (String × Ruleset)) :=
  let ruleapp_name := kv.1.1
  let ruleset_name := kv.1.2
  let filtered_rulesets := kv.2.filter (fun vr => rulesetEnabledFilter vr.2)
  if filtered_rulesets.isEmpty then pure acc
  else
    match sortedDescending filtered_rulesets with
    -- `sorted_rulesets[0]`: the empty case mirrors the indexing and is
    -- unreachable because sorting preserves non-emptiness
    | [] => .error .indexError
    | top :: _ => pure (dictInsert acc (ruleapp_name ++ ruleset_name) top.2)

/-- `DecisionServerManager.extract_highest_version_rulesets` (lines 77-113).
The returned dictionary is modelled as an insertion-ordered association
list; a raised `IndexError` is modelled as `Except.error`. -/
def extract_highest_version_rulesets (data : List RuleApp) :
    Except PyErr (List (String × Ruleset)) := do
  let ruleset_groups ← buildGroups data
  ruleset_groups.foldlM selectStep []

/-- Well-formedness of a catalog: every rule-application id has at least
two `/`-separated segments and every ruleset id at least three. -/
def wellFormedCatalog (data : List RuleApp) : Bool :=
  data.all (fun app =>
    2 ≤ (pySplit '/' app.id).length &&
    app.rulesets.all (fun rs => 3 ≤ (pySplit '/' rs.id).length))

/-- Which code path `get_input_schema` takes for the input schema:
the OpenAPI fallback `get_ruleset_openapi(ruleset)` (a network fetch), or
`json.loads` of the embedded `tools.parameters` string. -/
inductive SchemaSource where
  | openapi
  | parseParams (s : String)
deriving DecidableEq

/-- Line 232: `next((prop["value"] for prop in ruleset["properties"] if
prop["id"] == "tools.parameters"), "[]")` — the first matching property's
value (possibly `None`), defaulting to the string `"[]"`. -/
def toolsParametersValue (r : Ruleset) : Option String :=
  match r.properties.find? (fun p => p.id == "tools.parameters") with
  | some p => p.value
  | none => some "[]"

/-- `DecisionServerManager.get_input_schema` (lines 219-238), reduced to
the choice of code path that computes the schema. -/
def get_input_schema (r : Ruleset) : SchemaSource :=
  match toolsParametersValue r with
  | none => .openapi
  | some s => if s == "[]" then .openapi else .parseParams s

/-- A positional Python argument at the `DecisionServiceDescription(...)`
call site.  The tags only transport values; the Python constructor
performs no type checks, and the arity cases below are the ones its
signature `(self, tool_name, ruleset, input_schema, callback_name=None)`
admits. -/
inductive PyArg where
  | strArg (s : String)
  | optStrArg (o : Option String)
  | rulesetArg (r : Ruleset)
  | schemaArg (c : SchemaSource)
deriving DecidableEq

/-- The `mcp.types.Tool` value built by `DecisionServiceDescription`. -/
structure ToolInfo where
  name : String
  description : String
  inputSchema : SchemaSource
deriving DecidableEq

/-- A constructed `DecisionServiceDescription` instance. -/
structure DescObj where
  tool_name : String
  engine : String
  rulesetPath : String
  callbackName : Option String
  ruleset : Ruleset
  tool_description : ToolInfo
deriving DecidableEq

/-- The body of `DecisionServiceDescription.__init__`
(DecisionServiceDescription.py lines 20-31).  Note the source sets
`tool_description.description` to `ruleset["description"]`; no description
parameter exists. -/
def descriptionInitBody (tool_name : String) (ruleset : Ruleset)
    (input_schema : SchemaSource) (callback_name : Option String) : DescObj :=
  { tool_name := tool_name
    engine := "odm"
    rulesetPath := "/" ++ ruleset.id
    callbackName := callback_name
    ruleset := ruleset
    tool_description :=
      { name := tool_name
        description := ruleset.description
        inputSchema := input_schema } }

/-- Calling `DecisionServiceDescription(...)` with a positional argument
list: three or four arguments bind the `__init__` parameters; any other
count raises `TypeError`, as Python does for arity mismatches. -/
def decisionServiceDescriptionNew (args : List PyArg) : Except PyErr DescObj :=
  match args with
  | [.strArg n, .rulesetArg r, .schemaArg s] =>
      .ok (descriptionInitBody n r s none)
  | [.strArg n, .rulesetArg r, .schemaArg s, .optStrArg cb] =>
      .ok (descriptionInitBody n r s cb)
  | _ =>
      .error (.typeError "__init__ takes from 4 to 5 positional arguments but 6 were given")

/-- First property with the given id, yielding its (possibly `None`)
value: `next((prop["value"] for prop in ...), default)` without the
default applied. -/
def findPropValue (r : Ruleset) (pid : String) : Option (Option String) :=
  (r.properties.find? (fun p => p.id == pid)).map (fun p => p.value)

/-- `DecisionServerManager.generate_tools_format` (lines 243-265).  The
`tools.name` fallback chain calls `.replace(" ", "_").lower()`; a `None`
property value there would raise `AttributeError`, mirrored here.  The
construction call passes five positional arguments, as line 263 does.
The input-schema step is the path choice `get_input_schema`; a
`json.loads` failure on the embedded-parameters path (line 238) is not
modelled, so theorems about this function use only fixtures whose
embedded `tools.parameters` value parses as JSON (or is absent). -/
def generate_tools_format (filtered_rulesets : List (String × Ruleset)) :
    Except PyErr (List DescObj) :=
  filtered_rulesets.foldlM (fun acc kv => do
    let ruleset := kv.2
    let input_schema := get_input_schema ruleset
    let callbackName : Option String :=
      match findPropValue ruleset "tools.callback" with
      | some v => v
      | none => none
    let toolNameRaw : Except PyErr String :=
      match findPropValue ruleset "tools.name" with
      | some (some s) => .ok s
      | some none => .error .attributeError
      | none => .ok ruleset.displayName
    let base ← toolNameRaw
    let toolName := pyLower (pyReplaceChar ' ' '_' base)
    let toolDescription : Option String :=
      match findPropValue ruleset "tools.description" with
      | some v => v
      | none => some ruleset.description
    let formatted ← decisionServiceDescriptionNew
      [.strArg toolName, .rulesetArg ruleset, .optStrArg toolDescription,
       .schemaArg input_schema, .optStrArg callbackName]
    pure (acc ++ [formatted])) []

/-- A plain JSON-serializable Python value: the possible results of
`to_plain_dict` and the payloads of decision requests and responses. -/
inductive PVal where
  | pnull
  | pbool (b : Bool)
  | pnum (n : Int)
  | pstr (s : String)
  | pdict (fields : List (String × PVal))
  | plist (elems : List PVal)

/-- A node of a dereferenced OpenAPI document, as produced by
`jsonref.JsonRef.replace_refs` on parsed JSON: plain dicts, lists and
scalars are trees (JSON text is acyclic), and every `$ref` site holds a
`JsonRef` proxy object; cycles can only pass through a proxy.  `jref id`
is a proxy identified by its Python object id. -/
inductive JVal where
  | jnull
  | jbool (b : Bool)
  | jnum (n : Int)
  | jstr (s : String)
  | jdict (fields : List (String × JVal))
  | jlist (elems : List JVal)
  | jref (id : Nat)

/-- The `__subject__` of each proxy object, keyed by object id. -/
abbrev RefHeap := List (Nat × JVal)

/-- `type(obj).__name__` for a schema node; a `JsonRef` proxy forwards
`__class__` to its subject, which in a dereferenced schema is a dict. -/
def pyTypeName : JVal → String
  | .jnull => "NoneType"
  | .jbool _ => "bool"
  | .jnum _ => "int"
  | .jstr _ => "str"
  | .jdict _ => "dict"
  | .jlist _ => "list"
  | .jref _ => "dict"

/-- The marker string of `to_plain_dict` line 146:
`f"<Circular reference to ... object>"` with the proxy's type name. -/
def circularMarker (heap : RefHeap) (id : Nat) : String :=
  "<Circular reference to " ++
    (match List.lookup id heap with
     | some subj => pyTypeName subj
     | none => "object") ++ " object>"

/-- Entries of the heap whose proxy id is not yet in the visited set;
recursing into a fresh proxy strictly shrinks this count. -/
def remainingRefs (heap : RefHeap) (visited : List Nat) : Nat :=
  (heap.filter (fun p => decide (p.1 ∉ visited))).length

theorem remainingRefs_cons_le (heap : RefHeap) (visited : List Nat) (id : Nat) :
    remainingRefs heap (id :: visited) ≤ remainingRefs heap visited := by
  apply List.Sublist.length_le
  apply List.monotone_filter_right
  intro a ha
  simp only [decide_eq_true_eq] at ha ⊢
  intro hmem
  exact ha (List.mem_cons_of_mem _ hmem)

theorem remainingRefs_cons_lt (heap : RefHeap) (visited : List Nat) (id : Nat)
    (subj : JVal) (hlk : List.lookup id heap = some subj)
    (hnv : id ∉ visited) :
    remainingRefs heap (id :: visited) < remainingRefs heap visited := by
  induction heap with
  | nil => simp at hlk
  | cons hd tl ih =>
      rcases hd with ⟨k, v⟩
      simp only [remainingRefs, List.filter_cons]
      by_cases hk : id = k
      · have h1 : decide ((k, v).1 ∉ id :: visited) = false := by
          simp [hk.symm]
        have h2 : decide ((k, v).1 ∉ visited) = true := by
          simp only [decide_eq_true_eq]
          simpa [hk] using hnv
        rw [h1, h2]
        simp only [if_true, if_false, List.length_cons]
        calc (tl.filter (fun p => decide (p.1 ∉ id :: visited))).length
            ≤ (tl.filter (fun p => decide (p.1 ∉ visited))).length :=
              remainingRefs_cons_le tl visited id
          _ < (tl.filter (fun p => decide (p.1 ∉ visited))).length + 1 :=
              Nat.lt_succ_self _
      · have hlk' : List.lookup id tl = some subj := by
          have hbeq : (id == k) = false := beq_false_of_ne hk
          simpa [List.lookup, hbeq] using hlk
        have step := ih hlk'
        by_cases hv : k ∈ visited
        · have h1 : decide ((k, v).1 ∉ id :: visited) = false := by
            simp [hv]
          have h2 : decide ((k, v).1 ∉ visited) = false := by
            simp [hv]
          rw [h1, h2]
          simpa [remainingRefs] using step
        · have h1 : decide ((k, v).1 ∉ id :: visited) = true := by
            simp only [decide_eq_true_eq, List.mem_cons]
            push_neg
            exact ⟨fun hc => hk hc.symm, hv⟩
          have h2 : decide ((k, v).1 ∉ visited) = true := by
            simpa using hv
          rw [h1, h2]
          simp only [if_true, List.length_cons]
          have step' : remainingRefs tl (id :: visited) < remainingRefs tl visited := step
          simp only [remainingRefs] at step'
          omega

mutual
/-- `DecisionServerManager.to_plain_dict` (lines 116-174) on a
dereferenced schema.  A proxy (`jref`) has a `__dict__`, so it is guarded
by the visited set: a proxy id already being expanded yields the
circular-reference marker instead of being recursed into again (lines
145-150); otherwise its id is added to the visited set and its
`__subject__` is converted (line 162 via the dict branch).  Plain dicts,
lists and scalars are converted structurally (lines 154-165).  The
function is total: its termination is proved by the decreasing measure
(unvisited proxies, node size). -/
def to_plain_dict (heap : RefHeap) (visited : List Nat) (v : JVal) : PVal :=
  match v with
  | .jnull => .pnull
  | .jbool b => .pbool b
  | .jnum n => .pnum n
  | .jstr s => .pstr s
  | .jdict fields => .pdict (toPlainFields heap visited fields)
  | .jlist elems => .plist (toPlainElems heap visited elems)
  | .jref rid =>
      if h : rid ∈ visited then .pstr (circularMarker heap rid)
      else
        match hlk : List.lookup rid heap with
        | some subj => to_plain_dict heap (rid :: visited) subj
        | none =>
            -- an unresolvable proxy raises on `__subject__` access and is
            -- caught by the broad except clause, which returns `str(obj)`
            .pstr "<unresolvable JsonRef proxy>"
termination_by (remainingRefs heap visited, sizeOf v)
decreasing_by
  all_goals
    first
      | exact Prod.Lex.left _ _ (remainingRefs_cons_lt _ _ _ _ hlk h)
      | exact Prod.Lex.right _ (by first | omega | simp; try omega)

/-- The dict comprehension of line 155, converting each value. -/
def toPlainFields (heap : RefHeap) (visited : List Nat)
    (fields : List (String × JVal)) : List (String × PVal) :=
  match fields with
  | [] => []
  | (k, w) :: rest =>
      (k, to_plain_dict heap visited w) :: toPlainFields heap visited rest
termination_by (remainingRefs heap visited, sizeOf fields)
decreasing_by
  all_goals exact Prod.Lex.right _ (by first | omega | simp; try omega)

/-- The list comprehension of line 158, converting each element. -/
def toPlainElems (heap : RefHeap) (visited : List Nat)
    (elems : List JVal) : List PVal :=
  match elems with
  | [] => []
  | w :: rest =>
      to_plain_dict heap visited w :: toPlainElems heap visited rest
termination_by (remainingRefs heap visited, sizeOf elems)
decreasing_by
  all_goals exact Prod.Lex.right _ (by first | omega | simp; try omega)
end

/-- `d.update(other)`: assign each of `other`'s entries in order. -/
def dictUpdate {β : Type} (d other : List (String × β)) : List (String × β) :=
  other.foldl (fun acc kv => dictInsert acc kv.1 kv.2) d

/-- `self.trace` (DecisionServerManager.py lines 69-75). -/
def traceFilterDict : List (String × PVal) :=
  [("__TraceFilter__", .pdict
      [("none", .pbool true),
       ("infoTotalRulesFired", .pbool true),
       ("infoRulesFired", .pbool true)])]

/-- An HTTP response as `invokeDecisionService` reads it: status code, raw
text body, and the outcome of `response.json()`. -/
structure HttpResponse where
  status_code : Nat
  text : String
  jsonBody : Except PyErr PVal

/-- What a call to `invokeDecisionService` produces for its caller. -/
inductive InvokeOutcome where
  | retJson (v : PVal)
  | retNone
  | retErrorDict (msg : String)

/-- `DecisionServerManager.invokeDecisionService` (lines 300-329).
`postResult` is the outcome of the `session.post` call: a transport
exception (`requests.exceptions.RequestException`) or a response.  On 200
the parsed JSON body is returned (a JSON parse failure there raises a
`RequestException` subclass in current `requests`, landing in the same
except clause); on any other status the code prints the status and falls
off the end, returning Python's `None`. -/
def invokeDecisionService (decisionInputs : List (String × PVal)) (trace : Bool)
    (postResult : Except String HttpResponse) : InvokeOutcome :=
  -- params = {**decisionInputs}; if trace: params.update(self.trace)
  let _params :=
    if trace then dictUpdate decisionInputs traceFilterDict else decisionInputs
  match postResult with
  | .error e =>
      .retErrorDict ("An error occurred when invoking the Decision Service: " ++ e)
  | .ok response =>
      if response.status_code == 200 then
        match response.jsonBody with
        | .ok v => .retJson v
        | .error _ =>
            .retErrorDict "An error occurred when invoking the Decision Service: invalid JSON body"
      else
        .retNone

/-- A Python dictionary value. -/
abbrev PyDict := List (String × PVal)

/-- A heap of dictionary objects keyed by object address, to state what
`invokeDecisionService` mutates. -/
structure DictHeap where
  cells : List (Nat × PyDict)

/-- Read the dictionary at an address. -/
def heapLookup (h : DictHeap) (a : Nat) : Option PyDict :=
  List.lookup a h.cells

/-- An address not used by any cell of the heap. -/
def freshAddr (h : DictHeap) : Nat :=
  (h.cells.map Prod.fst).foldr max 0 + 1

/-- Allocate a new dictionary object. -/
def heapAlloc (h : DictHeap) (entries : PyDict) : DictHeap × Nat :=
  let a := freshAddr h
  (⟨h.cells ++ [(a, entries)]⟩, a)

/-- Overwrite the contents of the existing cell at an address. -/
def assocSet {β : Type} (l : List (Nat × β)) (k : Nat) (v : β) : List (Nat × β) :=
  match l with
  | [] => []
  | (k', v') :: rest =>
      if k' = k then (k, v) :: rest else (k', v') :: assocSet rest k v

/-- In-place mutation of the dictionary object at an address. -/
def heapSet (h : DictHeap) (a : Nat) (entries : PyDict) : DictHeap :=
  ⟨assocSet h.cells a entries⟩

/-- Lines 313-317 of `invokeDecisionService` as heap operations:
`params = {**decisionInputs}` allocates a fresh dictionary holding a copy
of the caller's entries, and `params.update(self.trace)` (executed when
`trace` is true) mutates only that fresh dictionary.  Returns the heap
afterwards and the address of `params`. -/
def invokeDecisionService_buildParams (h : DictHeap) (inputsAddr : Nat)
    (trace : Bool) : DictHeap × Nat :=
  let entries := (heapLookup h inputsAddr).getD []
  let p := heapAlloc h entries
  let h2 := if trace then heapSet p.1 p.2 (dictUpdate entries traceFilterDict) else p.1
  (h2, p.2)

/- Concrete fixtures used by the claim theorems and witnesses below. -/

/-- A basic-auth-only profile, matching the repository's own test values. -/
def basicCreds : Credentials :=
  { username := some "user", password := some "pass", token_url := none
    client_id := none, client_secret := none, zenapikey := none
    pkjwt_cert_path := none }

/-- Properties marking a ruleset enabled and tool-exposed. -/
def enabledProps : List RSProp :=
  [⟨"ruleset.status", some "enabled"⟩, ⟨"tools.enabled", some "true"⟩]

/-- Version 1.0 of the (app1, rs) decision, enabled and tool-exposed. -/
def rsV1 : Ruleset :=
  ⟨"app1/v1/rs", "1.0", "RS one", "first version", enabledProps⟩

/-- Version 2.0 of the (app1, rs) decision, enabled and tool-exposed. -/
def rsV2 : Ruleset :=
  ⟨"app1/v1/rs", "2.0", "RS two", "second version", enabledProps⟩

/-- Version 3.0 of the (app1, rs) decision, disabled. -/
def rsV3 : Ruleset :=
  ⟨"app1/v1/rs", "3.0", "RS three", "third version",
   [⟨"ruleset.status", some "disabled"⟩, ⟨"tools.enabled", some "true"⟩]⟩

/-- The catalog of the version-selection scenario. -/
def catalogVersions : List RuleApp :=
  [⟨"app1/v1", [rsV1, rsV2, rsV3]⟩]

/-- The enabled, tool-exposed ruleset of group ("foo", "bar1"). -/
def rsFooBar1 : Ruleset :=
  ⟨"foo/v1/bar1", "1.0", "Foo bar1", "group foo bar1", enabledProps⟩

/-- The enabled, tool-exposed ruleset of group ("foo1", "bar"). -/
def rsFoo1Bar : Ruleset :=
  ⟨"foo1/v1/bar", "1.0", "Foo1 bar", "group foo1 bar", enabledProps⟩

/-- The enabled, tool-exposed ruleset of group ("foob", "ar1"). -/
def rsFoobAr1 : Ruleset :=
  ⟨"foob/v1/ar1", "1.0", "Foob ar1", "group foob ar1", enabledProps⟩

/-- The catalog of the spec's named example: groups ("foo","bar1") and
("foo1","bar"). -/
def catalogNamedExample : List RuleApp :=
  [⟨"foo/v1", [rsFooBar1]⟩, ⟨"foo1/v1", [rsFoo1Bar]⟩]

/-- A catalog whose two distinct groups ("foo","bar1") and ("foob","ar1")
concatenate to the same key "foobar1". -/
def catalogColliding : List RuleApp :=
  [⟨"foo/v1", [rsFooBar1]⟩, ⟨"foob/v1", [rsFoobAr1]⟩]

/-- A rule application whose id has no `/` separator. -/
def appNoSlash : RuleApp :=
  ⟨"noslash", []⟩

/-- A rule application whose ruleset id has only two `/`-separated
segments. -/
def appShortRulesetId : RuleApp :=
  ⟨"app/v1", [⟨"app/v1", "1.0", "Short", "short id", enabledProps⟩]⟩

/-- A ruleset carrying a `tools.description` property different from its
own description field, plus an embedded parameter schema. -/
def rsToolDesc : Ruleset :=
  ⟨"test/v1/ruleset1", "1.0", "Display Name", "Ruleset description",
   [⟨"ruleset.status", some "enabled"⟩,
    ⟨"tools.enabled", some "true"⟩,
    ⟨"tools.description", some "Tool description property"⟩,
    ⟨"tools.parameters", some "embedded-schema-json"⟩]⟩

/-- A ruleset with no `tools.parameters` property at all. -/
def rsNoParams : Ruleset :=
  ⟨"test/v1/ruleset2", "1.0", "Other Name", "Other description", enabledProps⟩

/-- A ruleset carrying a `tools.description` property different from its
own description field, whose `tools.parameters` value "123" is valid
JSON: in the source, `json.loads("123")` succeeds (returning 123), so
`get_input_schema` returns normally and execution reaches the
construction call at line 263. -/
def rsToolDescValidParams : Ruleset :=
  ⟨"test/v1/ruleset9", "1.0", "Display Name", "Ruleset description",
   [⟨"ruleset.status", some "enabled"⟩,
    ⟨"tools.enabled", some "true"⟩,
    ⟨"tools.description", some "Tool description property"⟩,
    ⟨"tools.parameters", some "123"⟩]⟩

/-- A heap with one self-referencing schema definition: proxy 0 resolves
to a dict whose "next" property is proxy 0 again. -/
def cyclicHeap : RefHeap :=
  [(0, .jdict [("name", .jstr "Node"), ("next", .jref 0)])]

/-- A dereferenced schema whose "root" property is the self-referencing
definition. -/
def cyclicSchema : JVal :=
  .jdict [("root", .jref 0)]

/-- The 500 response of the failed-invocation scenario. -/
def resp500 : HttpResponse :=
  ⟨500, "Internal Server Error", .error .jsonDecodeError⟩

/-- The caller's inputs of the invocation scenarios. -/
def sampleInputs : List (String × PVal) :=
  [("input1", .pstr "value1"), ("input2", .pstr "value2")]

/-- A one-dictionary heap: the caller's inputs live at address 0. -/
def sampleHeap : DictHeap :=
  ⟨[(0, sampleInputs)]⟩

/-- Whether an embedded computation finished without raising. -/
def exceptOk {ε α : Type} : Except ε α → Bool
  | .ok _ => true
  | .error _ => false

/-! ## Claim theorems -/

/-- C1 counterexample: on a non-200 (here 500) response,
`invokeDecisionService` does not fail — it returns Python's `None`
(after printing the status), i.e. an empty value, contradicting the
claimed `DecisionInvocationError`. -/
theorem invoke_non200_counterexample :
    resp500.status_code ≠ 200 ∧
    invokeDecisionService sampleInputs true (.ok resp500) = .retNone :=
  ⟨by decide, rfl⟩

/-- C1 (amended): for every input mapping and trace flag, when the POST
returns a response with a non-200 status, `invokeDecisionService` prints
the status and returns `None`; no exception is raised and no error value
carrying the status or body is produced. -/
theorem invoke_non200_returns_none (inputs : List (String × PVal)) (tr : Bool)
    (resp : HttpResponse) (hne : resp.status_code ≠ 200) :
    invokeDecisionService inputs tr (.ok resp) = .retNone := by
  have h200 : (resp.status_code == 200) = false := by
    simpa using hne
  simp [invokeDecisionService, h200]

/-- C1 witness: the amended theorem at a concrete 404 response. -/
theorem invoke_non200_returns_none_witness :
    invokeDecisionService [] false (.ok ⟨404, "Not Found", .error .jsonDecodeError⟩) =
      .retNone :=
  invoke_non200_returns_none [] false ⟨404, "Not Found", .error .jsonDecodeError⟩ (by decide)

/-- C2 (code_bug): evaluating `get_auth` at the failing input — a profile
with no credential field populated at all — shows it returns the base
header mapping (no `Authorization`) and raises nothing, although the
repository's own test `test_get_auth_no_credentials` expects a
`ValueError` for exactly this profile. -/
theorem get_auth_empty_profile_returns_headers :
    get_auth emptyCreds noEffects = .ok baseHeaders ∧
    ∀ kv ∈ baseHeaders, kv.1 ≠ "Authorization" :=
  ⟨rfl, by decide⟩

/-- Supporting generalisation of the C2 evaluation: for every profile in
which no scheme's required fields are fully populated (no API key, no
client id or secret, no username+password pair), `get_auth` returns the
base headers (Content-Type and accept only, no Authorization) instead of
failing. -/
theorem get_auth_no_scheme_returns_base (c : Credentials) (eff : AuthEffects)
    (h1 : truthy c.zenapikey = false) (h2 : truthy c.client_id = false)
    (h3 : truthy c.client_secret = false)
    (h4 : (truthy c.username && truthy c.password) = false) :
    get_auth c eff = .ok baseHeaders ∧ ∀ kv ∈ baseHeaders, kv.1 ≠ "Authorization" := by
  refine ⟨?_, by decide⟩
  simp [get_auth, h1, h2, h3, h4]

/-- The supporting generalisation applied at a profile holding only a
password. -/
theorem get_auth_no_scheme_witness :
    get_auth ⟨none, some "pw", none, none, none, none, none⟩ noEffects = .ok baseHeaders ∧
    ∀ kv ∈ baseHeaders, kv.1 ≠ "Authorization" :=
  get_auth_no_scheme_returns_base ⟨none, some "pw", none, none, none, none, none⟩
    noEffects rfl rfl rfl rfl

/-- C3 (code_bug): at a ruleset whose `tools.parameters` value "123" is
valid JSON, the source's `get_input_schema` returns normally (no
`json.JSONDecodeError` at line 238) and execution reaches line 263, where
`generate_tools_format` passes the `tools.description` value as a fifth
positional argument to the four-parameter
`DecisionServiceDescription.__init__`, raising `TypeError`; and the
constructor itself sets the tool description to `ruleset["description"]`,
ignoring the property, so the claimed surfacing cannot happen. -/
theorem generate_tools_format_description_bug :
    get_input_schema rsToolDescValidParams = .parseParams "123" ∧
    generate_tools_format [("test/v1/ruleset9", rsToolDescValidParams)] =
      .error (.typeError "__init__ takes from 4 to 5 positional arguments but 6 were given") ∧
    findPropValue rsToolDescValidParams "tools.description" =
      some (some "Tool description property") ∧
    (decisionServiceDescriptionNew
        [.strArg "display_name", .rulesetArg rsToolDescValidParams,
         .schemaArg (get_input_schema rsToolDescValidParams), .optStrArg none]).map
      (fun d => d.tool_description.description) = .ok "Ruleset description" ∧
    rsToolDescValidParams.description = "Ruleset description" :=
  ⟨rfl, rfl, rfl, rfl, rfl⟩

/-- C4: for a group holding versions 1.0 (enabled, tool-exposed), 2.0
(enabled, tool-exposed) and 3.0 (disabled), the selection returns the
version-2.0 record: the disabled 3.0 record fails the filter even though
its version string is the highest. -/
theorem extract_selects_highest_enabled_version :
    extract_highest_version_rulesets catalogVersions = .ok [("app1rs", rsV2)] ∧
    rsV2.version = "2.0" ∧ rsV3.version = "3.0" ∧
    pyStrLt rsV2.version rsV3.version = true ∧
    rulesetEnabledFilter rsV3 = false :=
  ⟨rfl, rfl, rfl, by decide, by decide⟩

/-- C5: `get_input_schema` falls back to the OpenAPI derivation exactly
when the `tools.parameters` property is absent (the `"[]"` default), has
a `None` (empty) value, or equals the `"[]"` sentinel; any other embedded
value is handed to `json.loads`. -/
theorem get_input_schema_fallback (r : Ruleset) :
    (get_input_schema r = .openapi ↔
      toolsParametersValue r = none ∨ toolsParametersValue r = some "[]") ∧
    (∀ s, toolsParametersValue r = some s → s ≠ "[]" →
      get_input_schema r = .parseParams s) := by
  cases hv : toolsParametersValue r with
  | none => simp [get_input_schema, hv]
  | some s =>
      by_cases hs : s = "[]"
      · subst hs
        simp [get_input_schema, hv]
      · have hbeq : (s == "[]") = false := by
          simpa using hs
        constructor
        · simp [get_input_schema, hv, hbeq, hs]
        · intro t ht hne
          have hst : s = t := by
            simpa using ht
          subst hst
          simp [get_input_schema, hv, hbeq]

/-- C5 witness: the theorem at a ruleset with an embedded schema (parsed)
and at one with no `tools.parameters` property (OpenAPI fallback). -/
theorem get_input_schema_fallback_witness :
    get_input_schema rsToolDesc = .parseParams "embedded-schema-json" ∧
    get_input_schema rsNoParams = .openapi :=
  ⟨(get_input_schema_fallback rsToolDesc).2 "embedded-schema-json" rfl (by decide),
   (get_input_schema_fallback rsNoParams).1.mpr (Or.inr rfl)⟩

/-- C6 counterexample: the spec's named example groups ("foo","bar1") and
("foo1","bar") concatenate to the different keys "foobar1" and "foo1bar",
so the result map holds an entry for each of the two groups — not for
only one of them as the claim states. -/
theorem extract_named_example_two_entries :
    extract_highest_version_rulesets catalogNamedExample =
      .ok [("foobar1", rsFooBar1), ("foo1bar", rsFoo1Bar)] ∧
    ("foobar1" : String) ≠ "foo1bar" :=
  ⟨rfl, by decide⟩

/-- C6 (amended): the result map is keyed by the separator-free
concatenation of application name and ruleset name, and for the two
distinct groups ("foo","bar1") and ("foob","ar1") — whose keys both
concatenate to "foobar1" — the returned map holds a single entry: the
second group's representative has overwritten the first. -/
theorem extract_concat_key_collision :
    buildGroups catalogColliding =
      .ok [(("foo", "bar1"), [("v1", rsFooBar1)]),
           (("foob", "ar1"), [("v1", rsFoobAr1)])] ∧
    "foo" ++ "bar1" = "foobar1" ∧ "foob" ++ "ar1" = "foobar1" ∧
    extract_highest_version_rulesets catalogColliding = .ok [("foobar1", rsFoobAr1)] :=
  ⟨rfl, by decide, by decide, rfl⟩

theorem filter_auth_cons (v : String) :
    ((("Authorization", v) :: baseHeaders).filter
      (fun kv => kv.1 == "Authorization")).length = 1 := by
  have h1 : (("Authorization" : String) == "Authorization") = true := by decide
  have h2 : (("Content-Type" : String) == "Authorization") = false := by decide
  have h3 : (("accept" : String) == "Authorization") = false := by decide
  simp [baseHeaders, List.filter, h1, h2, h3]

theorem auth_header_value (v : String) (kv : String × String)
    (hmem : kv ∈ ("Authorization", v) :: baseHeaders)
    (hkey : kv.1 = "Authorization") : kv.2 = v := by
  rcases List.mem_cons.mp hmem with h | h
  · rw [h]
  · exfalso
    simp only [baseHeaders, List.mem_cons, List.not_mem_nil, or_false] at h
    rcases h with h1 | h1
    · rw [h1] at hkey
      exact absurd hkey (by decide)
    · rw [h1] at hkey
      exact absurd hkey (by decide)

theorem marker_split_zen : ("ZenApiKey " : String) = "ZenApiKey" ++ " " := by decide

theorem marker_split_bearer : ("Bearer " : String) = "Bearer" ++ " " := by decide

theorem marker_split_basic : ("Basic " : String) = "Basic" ++ " " := by decide

/-- C7: for every valid single-scheme credential profile, the header
mapping `get_auth` returns holds exactly one `Authorization` entry, and
its value carries the scheme matching the configured credentials
(`ZenApiKey` for the API key, `Bearer` for OAuth, `Basic` for
username+password) — never two schemes at once. -/
theorem get_auth_single_scheme (c : Credentials) (eff : AuthEffects) (s : AuthScheme)
    (hs : List (String × String)) (hconf : configuredScheme c s)
    (hok : get_auth c eff = .ok hs) :
    (hs.filter (fun kv => kv.1 == "Authorization")).length = 1 ∧
    ∀ kv ∈ hs, kv.1 = "Authorization" → ∃ rest, kv.2 = schemeMarker s ++ " " ++ rest := by
  cases s with
  | apikeyScheme =>
      obtain ⟨hz, hu, _, _, _⟩ := hconf
      have hu' : (!truthy c.username) = false := by rw [hu]; rfl
      simp only [get_auth, hz, hu', if_true, if_false, Bool.false_eq_true, ite_false,
        ite_true, Except.ok.injEq] at hok
      subst hok
      refine ⟨filter_auth_cons _, fun kv hmem hkey => ?_⟩
      refine ⟨base64OfString (pyStr c.username ++ ":" ++ pyStr c.zenapikey), ?_⟩
      rw [auth_header_value _ kv hmem hkey]
      rw [show schemeMarker .apikeyScheme ++ " " = "ZenApiKey " from marker_split_zen.symm]
  | oauthScheme =>
      obtain ⟨hz, hcc, _, _⟩ := hconf
      have hcc' : (truthy c.client_id || truthy c.client_secret) = true := by
        rcases hcc with h | h <;> simp [h]
      by_cases hcid : truthy c.client_id = true
      case neg =>
        have hcid0 : truthy c.client_id = false := Bool.eq_false_iff.mpr hcid
        have hguardT : (!truthy c.client_id || !truthy c.token_url) = true := by
          rw [hcid0]
          rfl
        simp only [get_auth, hz, hcc', hguardT, if_true, if_false, Bool.false_eq_true,
          ite_false, ite_true] at hok
        exact Except.noConfusion hok
      case pos =>
      by_cases htok : truthy c.token_url = true
      case neg =>
        have htok0 : truthy c.token_url = false := Bool.eq_false_iff.mpr htok
        have hguardT : (!truthy c.client_id || !truthy c.token_url) = true := by
          rw [htok0, hcid]
          rfl
        simp only [get_auth, hz, hcc', hguardT, if_true, if_false, Bool.false_eq_true,
          ite_false, ite_true] at hok
        exact Except.noConfusion hok
      case pos =>
      have hguard : (!truthy c.client_id || !truthy c.token_url) = false := by
        rw [hcid, htok]
        rfl
      by_cases hpk : truthy c.pkjwt_cert_path = true
      · cases hjs : eff.jwtSign with
        | error e =>
            simp only [get_auth, hz, hcc', hguard, hpk, hjs, if_true, if_false,
              Bool.false_eq_true, ite_false, ite_true, bind, Except.bind, Functor.map,
              Except.map, pure, Except.pure] at hok
            exact Except.noConfusion hok
        | ok jwt =>
            cases htp : eff.tokenPost with
            | error e =>
                simp only [get_auth, hz, hcc', hguard, hpk, hjs, htp, if_true, if_false,
                  Bool.false_eq_true, ite_false, ite_true, bind, Except.bind, Functor.map,
                  Except.map, pure, Except.pure] at hok
                exact Except.noConfusion hok
            | ok tok =>
                simp only [get_auth, hz, hcc', hguard, hpk, hjs, htp, if_true, if_false,
                  Bool.false_eq_true, ite_false, ite_true, bind, Except.bind, Functor.map,
                  Except.map, pure, Except.pure, Except.ok.injEq] at hok
                subst hok
                refine ⟨filter_auth_cons _, fun kv hmem hkey => ?_⟩
                refine ⟨tok, ?_⟩
                rw [auth_header_value _ kv hmem hkey]
                rw [show schemeMarker .oauthScheme ++ " " = "Bearer " from
                  marker_split_bearer.symm]
      · have hpk0 : truthy c.pkjwt_cert_path = false := Bool.eq_false_iff.mpr hpk
        by_cases hcs : truthy c.client_secret = true
        · have hcs' : (!truthy c.client_secret) = false := by rw [hcs]; rfl
          cases htp : eff.tokenPost with
          | error e =>
              simp only [get_auth, hz, hcc', hguard, hpk0, hcs', htp, if_true, if_false,
                Bool.false_eq_true, ite_false, ite_true, bind, Except.bind, Functor.map,
                Except.map, pure, Except.pure] at hok
              exact Except.noConfusion hok
          | ok tok =>
              simp only [get_auth, hz, hcc', hguard, hpk0, hcs', htp, if_true, if_false,
                Bool.false_eq_true, ite_false, ite_true, bind, Except.bind, Functor.map,
                Except.map, pure, Except.pure, Except.ok.injEq] at hok
              subst hok
              refine ⟨filter_auth_cons _, fun kv hmem hkey => ?_⟩
              refine ⟨tok, ?_⟩
              rw [auth_header_value _ kv hmem hkey]
              rw [show schemeMarker .oauthScheme ++ " " = "Bearer " from
                marker_split_bearer.symm]
        · have hcs0 : truthy c.client_secret = false := Bool.eq_false_iff.mpr hcs
          have hcs' : (!truthy c.client_secret) = true := by rw [hcs0]; rfl
          simp only [get_auth, hz, hcc', hguard, hpk0, hcs', if_true, if_false,
            Bool.false_eq_true, ite_false, ite_true, bind, Except.bind, Functor.map,
            Except.map, pure, Except.pure] at hok
          exact Except.noConfusion hok
  | basicScheme =>
      obtain ⟨hz, hcid, hcs, hu, hp⟩ := hconf
      have hcc : (truthy c.client_id || truthy c.client_secret) = false := by
        rw [hcid, hcs]
        rfl
      have hup : (truthy c.username && truthy c.password) = true := by
        rw [hu, hp]
        rfl
      simp only [get_auth, hz, hcc, hup, if_true, if_false, Bool.false_eq_true, ite_false,
        ite_true, Except.ok.injEq] at hok
      subst hok
      refine ⟨filter_auth_cons _, fun kv hmem hkey => ?_⟩
      refine ⟨base64OfString (pyStr c.username ++ ":" ++ pyStr c.password), ?_⟩
      rw [auth_header_value _ kv hmem hkey]
      rw [show schemeMarker .basicScheme ++ " " = "Basic " from marker_split_basic.symm]

/-- C7 witness: the theorem at the basic-auth profile of the repository's
tests, whose headers `get_auth` computes to a single `Basic`
Authorization entry. -/
theorem get_auth_single_scheme_witness :
    ((("Authorization", "Basic dXNlcjpwYXNz") :: baseHeaders).filter
      (fun kv => kv.1 == "Authorization")).length = 1 ∧
    ∀ kv ∈ ("Authorization", "Basic dXNlcjpwYXNz") :: baseHeaders,
      kv.1 = "Authorization" →
        ∃ rest, kv.2 = schemeMarker .basicScheme ++ " " ++ rest :=
  get_auth_single_scheme basicCreds noEffects .basicScheme
    (("Authorization", "Basic dXNlcjpwYXNz") :: baseHeaders)
    ⟨rfl, rfl, rfl, rfl, rfl⟩ rfl

/-- C8: a proxy node whose id is already in the visited set is replaced
by the circular-reference marker instead of being recursed into again;
and on the concrete self-referencing schema the (total, hence
terminating) conversion produces the marker inside the converted
structure. -/
theorem to_plain_dict_cycle_guard :
    (∀ (heap : RefHeap) (visited : List Nat) (pid : Nat), pid ∈ visited →
      to_plain_dict heap visited (.jref pid) = .pstr (circularMarker heap pid)) ∧
    to_plain_dict cyclicHeap [] cyclicSchema =
      .pdict [("root", .pdict [("name", .pstr "Node"),
        ("next", .pstr "<Circular reference to dict object>")])] := by
  constructor
  · intro heap visited pid hmem
    simp [to_plain_dict, hmem]
  · simp [to_plain_dict, toPlainFields, cyclicHeap, cyclicSchema, circularMarker,
      pyTypeName, List.lookup]
    decide

/-- C8 witness: the guard clause of the theorem at the concrete cyclic
heap with proxy 0 already being expanded. -/
theorem to_plain_dict_cycle_witness :
    to_plain_dict cyclicHeap [0] (.jref 0) = .pstr (circularMarker cyclicHeap 0) :=
  to_plain_dict_cycle_guard.1 cyclicHeap [0] 0 (by decide)

theorem le_foldr_max (a : Nat) (l : List Nat) (hmem : a ∈ l) :
    a ≤ l.foldr max 0 := by
  induction l with
  | nil => cases hmem
  | cons b t ih =>
      rcases List.mem_cons.mp hmem with h | h
      · rw [h]
        exact le_max_left _ _
      · exact le_trans (ih h) (le_max_right _ _)

theorem lookup_none_of_keys_lt {β : Type} (l : List (Nat × β)) (a : Nat)
    (hk : ∀ p ∈ l, p.1 < a) : List.lookup a l = none := by
  induction l with
  | nil => rfl
  | cons hd tl ih =>
      rcases hd with ⟨k, v⟩
      have h1 : k < a := hk (k, v) (List.mem_cons_self _ _)
      have hbeq : (a == k) = false := by
        simp only [beq_eq_false_iff_ne, ne_eq]
        omega
      simp only [List.lookup, hbeq]
      exact ih (fun p hp => hk p (List.mem_cons_of_mem _ hp))

theorem heapLookup_fresh (h : DictHeap) : heapLookup h (freshAddr h) = none := by
  apply lookup_none_of_keys_lt
  intro p hp
  have hmem : p.1 ∈ h.cells.map Prod.fst := List.mem_map_of_mem Prod.fst hp
  have hle := le_foldr_max p.1 _ hmem
  simp only [freshAddr]
  omega

theorem lookup_append_some {β : Type} {l l2 : List (Nat × β)} {a : Nat} {w : β}
    (hl : List.lookup a l = some w) : List.lookup a (l ++ l2) = some w := by
  induction l with
  | nil => simp [List.lookup] at hl
  | cons hd tl ih =>
      rcases hd with ⟨k, v⟩
      cases hbeq : (a == k) with
      | true =>
          simp only [List.lookup, hbeq] at hl
          simp only [List.cons_append, List.lookup, hbeq]
          exact hl
      | false =>
          simp only [List.lookup, hbeq] at hl
          simp only [List.cons_append, List.lookup, hbeq]
          exact ih hl

theorem lookup_assocSet_ne {β : Type} (l : List (Nat × β)) (k a : Nat) (v : β)
    (hne : a ≠ k) : List.lookup a (assocSet l k v) = List.lookup a l := by
  induction l with
  | nil => rfl
  | cons hd tl ih =>
      rcases hd with ⟨k', v'⟩
      by_cases hk : k' = k
      · subst hk
        have hbeq : (a == k') = false := beq_false_of_ne hne
        simp only [assocSet, if_pos rfl, List.lookup, hbeq]
      · simp only [assocSet, if_neg hk]
        cases hbeq : (a == k') with
        | true => simp only [List.lookup, hbeq]
        | false =>
            simp only [List.lookup, hbeq]
            exact ih

theorem lookup_assocSet_append_self {β : Type} (l : List (Nat × β)) (k : Nat) (v w : β)
    (hnone : List.lookup k l = none) :
    List.lookup k (assocSet (l ++ [(k, v)]) k w) = some w := by
  induction l with
  | nil => simp [assocSet, List.lookup]
  | cons hd tl ih =>
      rcases hd with ⟨k', v'⟩
      cases hbeq : (k == k') with
      | true =>
          simp only [List.lookup, hbeq] at hnone
          exact Option.noConfusion hnone
      | false =>
          simp only [List.lookup, hbeq] at hnone
          have hk' : ¬ k' = k := by
            intro hc
            rw [hc] at hbeq
            simp at hbeq
          simp only [List.cons_append, assocSet, if_neg hk', List.lookup, hbeq]
          exact ih hnone

/-- C9: for every heap, caller dictionary and trace flag, the parameter
construction of `invokeDecisionService` leaves the caller's
`decisionInputs` dictionary unchanged — the `__TraceFilter__` block is
merged into the freshly allocated request body, never into the caller's
dictionary. -/
theorem buildParams_frame (h : DictHeap) (inputsAddr : Nat) (tr : Bool)
    (entries : PyDict) (hin : heapLookup h inputsAddr = some entries) :
    heapLookup (invokeDecisionService_buildParams h inputsAddr tr).1 inputsAddr =
      some entries ∧
    (tr = true →
      heapLookup (invokeDecisionService_buildParams h inputsAddr tr).1
          (invokeDecisionService_buildParams h inputsAddr tr).2 =
        some (dictUpdate entries traceFilterDict)) := by
  have hfresh : heapLookup h (freshAddr h) = none := heapLookup_fresh h
  have hin' : List.lookup inputsAddr h.cells = some entries := hin
  have hfresh' : List.lookup (freshAddr h) h.cells = none := hfresh
  have hne : inputsAddr ≠ freshAddr h := by
    intro hc
    rw [hc, hfresh] at hin
    exact Option.noConfusion hin
  cases tr with
  | false =>
      refine ⟨?_, by intro hc; exact absurd hc (by decide)⟩
      simp only [invokeDecisionService_buildParams, heapAlloc, heapLookup, hin',
        Option.getD, Bool.false_eq_true, if_false, ite_false]
      exact lookup_append_some hin'
  | true =>
      constructor
      · simp only [invokeDecisionService_buildParams, heapAlloc, heapLookup, hin',
          Option.getD, if_true, ite_true, heapSet]
        rw [lookup_assocSet_ne _ _ _ _ hne]
        exact lookup_append_some hin'
      · intro _
        simp only [invokeDecisionService_buildParams, heapAlloc, heapLookup, hin',
          Option.getD, if_true, ite_true, heapSet]
        exact lookup_assocSet_append_self h.cells (freshAddr h) entries
          (dictUpdate entries traceFilterDict) hfresh'

/-- C9 witness: the theorem at the concrete one-cell heap, with trace
enabled. -/
theorem buildParams_frame_witness :
    heapLookup (invokeDecisionService_buildParams sampleHeap 0 true).1 0 =
      some sampleInputs ∧
    (true = true →
      heapLookup (invokeDecisionService_buildParams sampleHeap 0 true).1
          (invokeDecisionService_buildParams sampleHeap 0 true).2 =
        some (dictUpdate sampleInputs traceFilterDict)) :=
  buildParams_frame sampleHeap 0 true sampleInputs rfl

theorem pyIndex_ok_of_lt (xs : List String) (i : Nat) (hlt : i < xs.length) :
    ∃ x, pyIndex xs i = .ok x := by
  cases hg : xs.get? i with
  | some x =>
      rw [List.get?_eq_getElem?] at hg
      exact ⟨x, by simp [pyIndex, hg]⟩
  | none =>
      rw [List.get?_eq_none] at hg
      omega

theorem length_insertStable {α : Type} (le : α → α → Bool) (a : α) (l : List α) :
    (insertStable le a l).length = l.length + 1 := by
  induction l with
  | nil => rfl
  | cons b bs ih =>
      simp only [insertStable]
      cases hle : le a b with
      | true => simp
      | false => simp [ih]

theorem length_stableSortBy {α : Type} (le : α → α → Bool) (xs : List α) :
    (stableSortBy le xs).length = xs.length := by
  induction xs with
  | nil => rfl
  | cons a t ih =>
      simp only [stableSortBy, List.foldr] at ih ⊢
      rw [length_insertStable, ih, List.length_cons]

theorem sortedDescending_ne_nil (xs : List (String × Ruleset)) (hne : xs ≠ []) :
    sortedDescending xs ≠ [] := by
  intro hc
  have hlen := length_stableSortBy (fun a b => keyLe (sortKey b) (sortKey a)) xs
  rw [show stableSortBy (fun a b => keyLe (sortKey b) (sortKey a)) xs =
      sortedDescending xs from rfl, hc] at hlen
  exact hne (List.length_eq_zero.mp hlen.symm)

theorem selectStep_ok (acc : List (String × Ruleset))
    (kv : (String × String) × List (String × Ruleset)) :
    ∃ acc', selectStep acc kv = .ok acc' := by
  by_cases hemp : (kv.2.filter (fun vr => rulesetEnabledFilter vr.2)).isEmpty = true
  · exact ⟨acc, by simp [selectStep, hemp, pure, Except.pure]⟩
  · have hne : kv.2.filter (fun vr => rulesetEnabledFilter vr.2) ≠ [] := by
      intro hc
      rw [hc] at hemp
      exact hemp rfl
    have hs := sortedDescending_ne_nil _ hne
    cases hsd : sortedDescending (kv.2.filter (fun vr => rulesetEnabledFilter vr.2)) with
    | nil => exact absurd hsd hs
    | cons top rest =>
        have hemp' : (kv.2.filter (fun vr => rulesetEnabledFilter vr.2)).isEmpty = false :=
          Bool.eq_false_iff.mpr hemp
        exact ⟨dictInsert acc (kv.1.1 ++ kv.1.2) top.2,
          by simp [selectStep, hemp', hsd, pure, Except.pure]⟩

theorem foldlM_selectStep_ok (groups : Groups) :
    ∀ acc, ∃ out, groups.foldlM selectStep acc = .ok out := by
  induction groups with
  | nil => exact fun acc => ⟨acc, rfl⟩
  | cons g gs ih =>
      intro acc
      obtain ⟨acc', hg⟩ := selectStep_ok acc g
      obtain ⟨out, hout⟩ := ih acc'
      exact ⟨out, by simp [List.foldlM, hg, hout, bind, Except.bind]⟩

theorem groupRulesetStep_ok (n v : String) (gs : Groups) (r : Ruleset)
    (hlen : 3 ≤ (pySplit '/' r.id).length) :
    ∃ gs', groupRulesetStep n v gs r = .ok gs' := by
  obtain ⟨x, hx⟩ := pyIndex_ok_of_lt (pySplit '/' r.id) 2 (by omega)
  exact ⟨groupAppend (n, x) (v, r) gs,
    by simp [groupRulesetStep, hx, bind, Except.bind, pure, Except.pure]⟩

theorem foldlM_groupRulesetStep_ok (n v : String) (rs : List Ruleset)
    (hall : ∀ r ∈ rs, 3 ≤ (pySplit '/' r.id).length) :
    ∀ gs, ∃ gs', rs.foldlM (groupRulesetStep n v) gs = .ok gs' := by
  induction rs with
  | nil => exact fun gs => ⟨gs, rfl⟩
  | cons r rest ih =>
      intro gs
      obtain ⟨gs1, h1⟩ := groupRulesetStep_ok n v gs r (hall r (List.mem_cons_self _ _))
      obtain ⟨gs2, h2⟩ := ih (fun q hq => hall q (List.mem_cons_of_mem _ hq)) gs1
      exact ⟨gs2, by simp [List.foldlM, h1, h2, bind, Except.bind]⟩

theorem groupAppStep_ok (gs : Groups) (app : RuleApp)
    (h2 : 2 ≤ (pySplit '/' app.id).length)
    (hall : ∀ r ∈ app.rulesets, 3 ≤ (pySplit '/' r.id).length) :
    ∃ gs', groupAppStep gs app = .ok gs' := by
  obtain ⟨x0, h0⟩ := pyIndex_ok_of_lt (pySplit '/' app.id) 0 (by omega)
  obtain ⟨x1, h1⟩ := pyIndex_ok_of_lt (pySplit '/' app.id) 1 (by omega)
  obtain ⟨gs', hgs⟩ := foldlM_groupRulesetStep_ok x0 x1 app.rulesets hall gs
  exact ⟨gs', by simp [groupAppStep, h0, h1, hgs, bind, Except.bind]⟩

theorem buildGroups_foldl_ok (data : List RuleApp)
    (hwf : ∀ app ∈ data, 2 ≤ (pySplit '/' app.id).length ∧
      ∀ r ∈ app.rulesets, 3 ≤ (pySplit '/' r.id).length) :
    ∀ gs, ∃ out, data.foldlM groupAppStep gs = .ok out := by
  induction data with
  | nil => exact fun gs => ⟨gs, rfl⟩
  | cons app rest ih =>
      intro gs
      obtain ⟨hlen, hall⟩ := hwf app (List.mem_cons_self _ _)
      obtain ⟨gs1, h1⟩ := groupAppStep_ok gs app hlen hall
      obtain ⟨out, h2⟩ := ih (fun q hq => hwf q (List.mem_cons_of_mem _ hq)) gs1
      exact ⟨out, by simp [List.foldlM, h1, h2, bind, Except.bind]⟩

/-- C10: the extraction is total on catalogs whose rule-application ids
have at least two `/`-separated segments and whose ruleset ids at least
three; on a rule application whose id has no `/` (or whose ruleset id has
only two segments) it raises `IndexError` instead of skipping the record
or returning an empty result. -/
theorem extract_wellformed_total :
    (∀ data : List RuleApp, wellFormedCatalog data = true →
      exceptOk (extract_highest_version_rulesets data) = true) ∧
    extract_highest_version_rulesets [appNoSlash] = .error .indexError ∧
    extract_highest_version_rulesets [appShortRulesetId] = .error .indexError := by
  refine ⟨?_, rfl, rfl⟩
  intro data hwf
  have hwf' : ∀ app ∈ data, 2 ≤ (pySplit '/' app.id).length ∧
      ∀ r ∈ app.rulesets, 3 ≤ (pySplit '/' r.id).length := by
    simpa only [wellFormedCatalog, List.all_eq_true, Bool.and_eq_true,
      decide_eq_true_eq] using hwf
  obtain ⟨groups, hg⟩ := buildGroups_foldl_ok data hwf' []
  obtain ⟨out, hout⟩ := foldlM_selectStep_ok groups []
  simp [extract_highest_version_rulesets, buildGroups, hg, hout, bind, Except.bind,
    exceptOk]

/-- C10 witness: the totality half of the theorem at the concrete
well-formed catalog of the version-selection scenario. -/
theorem extract_wellformed_witness :
    exceptOk (extract_highest_version_rulesets catalogVersions) = true :=
  extract_wellformed_total.1 catalogVersions (by decide)
